import Mathlib

/-!
# Verification of the todo CRUD API (`src/api_backend/app/main.py`)

A shallow embedding of the FastAPI application in `main.py` together with
the parts of the repository it imports (`crud`, `schemas`, `database`,
which are not present in the source tree and are therefore modelled from
the specification, as the doc comments note).

The embedding has three layers, mirroring the spec's component design:
* a persistence layer: the `DB` state (a table of `Todo` rows plus the
  autoincrement counter) with pure row operations;
* the data-access component `crud` operating on a per-request `Session`,
  committing its mutations;
* the HTTP routing component: path and body validation, the four endpoint
  handlers of `main.py` (`read_todos`, `add_todo`, `update`, `delete`),
  and the `get_db` scoped-session wrapper.

Storage failure is modelled by a `fault` flag: when set, the storage call
of the request (the query, or the flush/commit of a mutation) raises
instead of succeeding, after any pending in-session mutation was staged
but before it was committed.
-/

/-- A stored Todo row. Fields per the spec's data model: integer `id`
assigned by the persistence layer, required `title`, and a completion
flag as the representative optional field. -/
structure Todo where
  id : Int
  title : String
  completed : Bool
  deriving Repr, DecidableEq

/-- Modelled from the spec: `schemas.TodoCreate` (`schemas.py` is not in
the source tree) — `{ "title": string (required) }` plus the optional
completion flag. -/
structure TodoCreate where
  title : String
  completed : Bool
  deriving Repr, DecidableEq

/-- Modelled from the spec: `schemas.TodoUpdate` — same shape as
`TodoCreate`, all fields optional/overridable. -/
structure TodoUpdate where
  title : Option String
  completed : Option Bool
  deriving Repr, DecidableEq

/-- Modelled from the spec: `schemas.TodoOut` — the response schema
`{ "id": integer, "title": string, ... }`. -/
structure TodoOut where
  id : Int
  title : String
  completed : Bool
  deriving Repr, DecidableEq

/-- Serialization of a stored row through the `TodoOut` response model
(`response_model=schemas.TodoOut` in `main.py`). -/
def toOut (t : Todo) : TodoOut :=
  ⟨t.id, t.title, t.completed⟩

/-- The persistent store: the single table of Todo rows plus the
autoincrement counter for the next fresh id. Modelled from the spec:
"a single table/collection of Todo rows keyed by integer id", ids
"fresh, previously-unused" and "not reused" after deletion. -/
structure DB where
  rows : List Todo
  nextId : Int
  deriving Repr, DecidableEq

/-- The empty store, as created on startup; autoincrement ids start at 1. -/
def DB.empty : DB := ⟨[], 1⟩

/-- The ids of the stored rows, in storage order. -/
def DB.ids (db : DB) : List Int := db.rows.map (fun t => t.id)

/-- Modelled from the spec: the persistence layer's `findByID(id)` —
returns the record matching `id` or a not-found signal. -/
def find_by_id (db : DB) (todo_id : Int) : Option Todo :=
  db.rows.find? (fun t => t.id == todo_id)

/-- Modelled from the spec: the persistence layer's `insert(title, ...)` —
creates a new Todo with a fresh, previously-unused identifier and returns
the full stored record together with the new store. -/
def insertTodo (db : DB) (tc : TodoCreate) : Todo × DB :=
  let t : Todo := ⟨db.nextId, tc.title, tc.completed⟩
  (t, ⟨db.rows ++ [t], db.nextId + 1⟩)

/-- Modelled from the spec: applying the provided fields of an update to
a record; omitted fields retain their prior values (the spec's
recommended partial-update policy). -/
def applyUpdate (t : Todo) (u : TodoUpdate) : Todo :=
  ⟨t.id, u.title.getD t.title, u.completed.getD t.completed⟩

/-- Modelled from the spec: the row effect of the persistence layer's
`update(id, fields)` — the record matching the id is replaced by the
updated record; ids and the autoincrement counter are untouched. -/
def updateRows (db : DB) (todo_id : Int) (t' : Todo) : DB :=
  ⟨db.rows.map (fun r => if r.id == todo_id then t' else r), db.nextId⟩

/-- Modelled from the spec: the row effect of the persistence layer's
`delete(id)` — the record matching the id is permanently erased; the
autoincrement counter is untouched, so the id is never reused. -/
def deleteRows (db : DB) (todo_id : Int) : DB :=
  ⟨db.rows.filter (fun r => r.id != todo_id), db.nextId⟩

/-- Lifecycle events of a session: opening (`SessionLocal()`), commit,
the implicit rollback of uncommitted work, and close (`db.close()`). -/
inductive SessEvent where
  | opened
  | committed
  | rolledBack
  | closed
  deriving Repr, DecidableEq

/-- The per-request persistence session, as handed out by `get_db` in
`main.py`: `durable` is the committed store, `pending` the session's
working state, `events` the audit trail of its lifecycle. -/
structure Session where
  durable : DB
  pending : DB
  events : List SessEvent
  deriving Repr, DecidableEq

/-- `SessionLocal()` in `get_db`: a fresh session over the current store. -/
def openSession (store : DB) : Session :=
  ⟨store, store, [SessEvent.opened]⟩

/-- Modelled from the spec: committing the session makes its pending
state durable ("success commit"). In the repository the commit sits in
the data-access component (`crud`, not in the source tree). -/
def Session.commit (s : Session) : Session :=
  ⟨s.pending, s.pending, s.events ++ [SessEvent.committed]⟩

/-- `db.close()` in `get_db`: releases the session; uncommitted pending
work is implicitly rolled back (the durable store is left as last
committed), then the session is closed. -/
def Session.close (s : Session) : Session :=
  if s.pending = s.durable then
    ⟨s.durable, s.durable, s.events ++ [SessEvent.closed]⟩
  else
    ⟨s.durable, s.durable, s.events ++ [SessEvent.rolledBack, SessEvent.closed]⟩

/-- Errors a handler can signal: NotFound (404), schema validation
failure with field-level detail (422), storage failure (500). -/
inductive HErr where
  | notFound
  | validation (fields : List String)
  | storage
  deriving Repr, DecidableEq

namespace crud

/-- Modelled from the spec: `crud.get_todos(db)` (`crud.py` is not in the
source tree) — returns `persistence.list()` verbatim; a storage fault
makes the query raise. -/
def get_todos (fault : Bool) (s : Session) : Except HErr (List Todo) × Session :=
  if fault then (Except.error HErr.storage, s)
  else (Except.ok s.pending.rows, s)

/-- Modelled from the spec: `crud.create_todo(db, todo)` — calls
`persistence.insert` and commits; on a storage fault the insert is
staged in the session but the flush/commit raises. -/
def create_todo (fault : Bool) (s : Session) (todo : TodoCreate) :
    Except HErr Todo × Session :=
  let r := insertTodo s.pending todo
  let s1 : Session := ⟨s.durable, r.2, s.events⟩
  if fault then (Except.error HErr.storage, s1)
  else (Except.ok r.1, s1.commit)

/-- Modelled from the spec: `crud.update_todo(db, todo_id, todo)` —
calls `persistence.findByID`; if absent signals NotFound; otherwise
applies the provided fields, calls `persistence.update` and commits;
on a storage fault the flush/commit raises. -/
def update_todo (fault : Bool) (s : Session) (todo_id : Int) (todo : TodoUpdate) :
    Except HErr Todo × Session :=
  match find_by_id s.pending todo_id with
  | none => (Except.error HErr.notFound, s)
  | some t =>
    let t' := applyUpdate t todo
    let s1 : Session := ⟨s.durable, updateRows s.pending todo_id t', s.events⟩
    if fault then (Except.error HErr.storage, s1)
    else (Except.ok t', s1.commit)

/-- Modelled from the spec: `crud.delete_todo(db, todo_id)` — calls
`persistence.findByID`; if absent signals NotFound; otherwise calls
`persistence.delete`, commits, and returns the now-deleted record's
last known values; on a storage fault the flush/commit raises. -/
def delete_todo (fault : Bool) (s : Session) (todo_id : Int) :
    Except HErr Todo × Session :=
  match find_by_id s.pending todo_id with
  | none => (Except.error HErr.notFound, s)
  | some t =>
    let s1 : Session := ⟨s.durable, deleteRows s.pending todo_id, s.events⟩
    if fault then (Except.error HErr.storage, s1)
    else (Except.ok t, s1.commit)

end crud

/-- A scalar JSON value, for request bodies. -/
inductive JVal where
  | str (s : String)
  | int (n : Int)
  | bool (b : Bool)
  | null
  deriving Repr, DecidableEq

/-- A JSON object: the raw request body as received by the framework. -/
structure JObj where
  fields : List (String × JVal)
  deriving Repr, DecidableEq

/-- Field lookup in a JSON object. -/
def JObj.get (o : JObj) (k : String) : Option JVal :=
  (o.fields.find? (fun p => p.1 == k)).map (fun p => p.2)

/-- Modelled from the spec: schema validation of a `TodoCreate` body —
`title` required string, `completed` optional boolean; failure carries
field-level detail (the names of the offending fields). -/
def parseTodoCreate (o : JObj) : Except (List String) TodoCreate :=
  let te : Except (List String) String :=
    match o.get "title" with
    | some (JVal.str s) => Except.ok s
    | some _ => Except.error ["title"]
    | none => Except.error ["title"]
  let ce : Except (List String) Bool :=
    match o.get "completed" with
    | some (JVal.bool b) => Except.ok b
    | none => Except.ok false
    | some _ => Except.error ["completed"]
  match te, ce with
  | Except.ok t, Except.ok c => Except.ok ⟨t, c⟩
  | Except.error e1, Except.ok _ => Except.error e1
  | Except.ok _, Except.error e2 => Except.error e2
  | Except.error e1, Except.error e2 => Except.error (e1 ++ e2)

/-- Modelled from the spec: schema validation of a `TodoUpdate` body —
both fields optional, wrong types rejected with field-level detail. -/
def parseTodoUpdate (o : JObj) : Except (List String) TodoUpdate :=
  let te : Except (List String) (Option String) :=
    match o.get "title" with
    | some (JVal.str s) => Except.ok (some s)
    | none => Except.ok none
    | some _ => Except.error ["title"]
  let ce : Except (List String) (Option Bool) :=
    match o.get "completed" with
    | some (JVal.bool b) => Except.ok (some b)
    | none => Except.ok none
    | some _ => Except.error ["completed"]
  match te, ce with
  | Except.ok t, Except.ok c => Except.ok ⟨t, c⟩
  | Except.error e1, Except.ok _ => Except.error e1
  | Except.ok _, Except.error e2 => Except.error e2
  | Except.error e1, Except.error e2 => Except.error (e1 ++ e2)

/-- A success response body: a single `TodoOut` or a list of them, per
the endpoints' `response_model` declarations in `main.py`. -/
inductive Body where
  | one (t : TodoOut)
  | many (ts : List TodoOut)
  deriving Repr, DecidableEq

/-- An HTTP response of the application. -/
inductive Response where
  | ok (b : Body)
  | notFound
  | unprocessable (fields : List String)
  | serverError
  deriving Repr, DecidableEq

/-- The HTTP status code of a response. -/
def Response.status : Response → Nat
  | Response.ok _ => 200
  | Response.notFound => 404
  | Response.unprocessable _ => 422
  | Response.serverError => 500

/-- Conversion of a handler outcome to an HTTP response: errors are
converted at the routing-layer boundary to their status. -/
def toResponse : Except HErr Body → Response
  | Except.ok b => Response.ok b
  | Except.error HErr.notFound => Response.notFound
  | Except.error (HErr.validation fs) => Response.unprocessable fs
  | Except.error HErr.storage => Response.serverError

/-- `read_todos` in `main.py`: `GET /todos`, returns
`crud.get_todos(db)` serialized through `list[schemas.TodoOut]`. -/
def read_todos (fault : Bool) (s : Session) : Except HErr Body × Session :=
  let r := crud.get_todos fault s
  (r.1.map (fun ts => Body.many (ts.map toOut)), r.2)

/-- `add_todo` in `main.py`: `POST /todos`, returns
`crud.create_todo(db, todo)` serialized through `schemas.TodoOut`. -/
def add_todo (fault : Bool) (todo : TodoCreate) (s : Session) :
    Except HErr Body × Session :=
  let r := crud.create_todo fault s todo
  (r.1.map (fun t => Body.one (toOut t)), r.2)

/-- `update` in `main.py`: `PUT /todos/{todo_id}`, returns
`crud.update_todo(db, todo_id, todo)` serialized through `schemas.TodoOut`. -/
def update (fault : Bool) (todo_id : Int) (todo : TodoUpdate) (s : Session) :
    Except HErr Body × Session :=
  let r := crud.update_todo fault s todo_id todo
  (r.1.map (fun t => Body.one (toOut t)), r.2)

/-- `delete` in `main.py`: `DELETE /todos/{todo_id}`, returns
`crud.delete_todo(db, todo_id)` serialized through `schemas.TodoOut`. -/
def delete (fault : Bool) (todo_id : Int) (s : Session) :
    Except HErr Body × Session :=
  let r := crud.delete_todo fault s todo_id
  (r.1.map (fun t => Body.one (toOut t)), r.2)

/-- `get_db` in `main.py`: opens a fresh session (`SessionLocal()`),
yields it to the handler, and in the `finally` block closes it on every
exit path, success or failure; the handler's outcome is then converted
to the HTTP response. Returns the response, the resulting durable
store, and the session's event trail. -/
def get_db (store : DB) (handler : Session → Except HErr Body × Session) :
    Response × DB × List SessEvent :=
  let r := handler (openSession store)
  let s2 := r.2.close
  (toResponse r.1, s2.durable, s2.events)

/-- Decimal value of a digit character, or `none` for a non-digit. -/
def decDigit? (c : Char) : Option Nat :=
  if c.isDigit then some (c.toNat - 48) else none

/-- Accumulates the decimal value of a digit string; any non-digit
character fails the parse. -/
def digitsVal : List Char → Nat → Option Nat
  | [], acc => some acc
  | c :: cs, acc =>
    match decDigit? c with
    | some d => digitsVal cs (acc * 10 + d)
    | none => none

/-- The framework's conversion of the `{todo_id}` path segment to the
declared `int` type: an optional sign followed by one or more decimal
digits; anything else is a validation failure. -/
def parseIntSeg (s : String) : Option Int :=
  match s.data with
  | [] => none
  | '-' :: c :: cs => (digitsVal (c :: cs) 0).map (fun n => -(n : Int))
  | cs => (digitsVal cs 0).map (fun n => (n : Int))

/-- A raw inbound HTTP request to one of the four routes: the path id
arrives as an unparsed string, the body as a JSON object. -/
inductive Request where
  | getTodos
  | postTodo (body : JObj)
  | putTodo (rawId : String) (body : JObj)
  | deleteTodo (rawId : String)
  deriving Repr, DecidableEq

/-- The FastAPI routing layer of `main.py`: validates the `{todo_id}`
path parameter (declared `int`) and the request body against the schema
before the endpoint function is invoked — a failed validation yields
422 without touching the store — then runs the endpoint inside the
`get_db` session scope. -/
def runRequest (store : DB) (fault : Bool) : Request → Response × DB × List SessEvent
  | Request.getTodos => get_db store (read_todos fault)
  | Request.postTodo body =>
    match parseTodoCreate body with
    | Except.error fs => (Response.unprocessable fs, store, [])
    | Except.ok tc => get_db store (add_todo fault tc)
  | Request.putTodo rawId body =>
    match parseIntSeg rawId with
    | none => (Response.unprocessable ["todo_id"], store, [])
    | some todo_id =>
      match parseTodoUpdate body with
      | Except.error fs => (Response.unprocessable fs, store, [])
      | Except.ok u => get_db store (update fault todo_id u)
  | Request.deleteTodo rawId =>
    match parseIntSeg rawId with
    | none => (Response.unprocessable ["todo_id"], store, [])
    | some todo_id => get_db store (delete fault todo_id)

/-- A logical client operation against the store, for stating
history properties over sequences of requests. -/
inductive Op where
  | create (tc : TodoCreate)
  | upd (todo_id : Int) (u : TodoUpdate)
  | del (todo_id : Int)
  deriving Repr, DecidableEq

/-- One trace step: the committed effect of an operation on the store
(a failed operation — NotFound — leaves the store unchanged), together
with the id history: each successful create appends the id it returned. -/
def stepOp (db : DB) (hist : List Int) : Op → DB × List Int
  | Op.create tc =>
    let r := insertTodo db tc
    (r.2, hist ++ [r.1.id])
  | Op.upd todo_id u =>
    match find_by_id db todo_id with
    | none => (db, hist)
    | some t => (updateRows db todo_id (applyUpdate t u), hist)
  | Op.del todo_id =>
    match find_by_id db todo_id with
    | none => (db, hist)
    | some _ => (deleteRows db todo_id, hist)

/-- Runs a trace of operations, accumulating the history of ids
returned by creates. -/
def runOps : DB → List Int → List Op → DB × List Int
  | db, hist, [] => (db, hist)
  | db, hist, op :: ops =>
    let r := stepOp db hist op
    runOps r.1 r.2 ops

/-- Runs a sequence of creates against the store. -/
def runCreates : DB → List TodoCreate → DB
  | db, [] => db
  | db, tc :: tcs => runCreates (insertTodo db tc).2 tcs

/-- Runs a sequence of deletes against the store; a delete whose id is
absent signals NotFound and leaves the store unchanged. -/
def runDeletes : DB → List Int → DB
  | db, [] => db
  | db, d :: ds =>
    match find_by_id db d with
    | none => runDeletes db ds
    | some _ => runDeletes (deleteRows db d) ds

/-- C1: a PUT on an id that matches no stored Todo yields NotFound
(HTTP 404) and leaves the stored state unchanged, whether or not the
storage backend would have faulted on a write. -/
theorem update_missing_yields_notFound (store : DB) (fault : Bool) (rawId : String)
    (body : JObj) (todo_id : Int) (u : TodoUpdate)
    (hraw : parseIntSeg rawId = some todo_id)
    (hbody : parseTodoUpdate body = Except.ok u)
    (habs : find_by_id store todo_id = none) :
    (runRequest store fault (Request.putTodo rawId body)).1 = Response.notFound ∧
    (runRequest store fault (Request.putTodo rawId body)).1.status = 404 ∧
    (runRequest store fault (Request.putTodo rawId body)).2.1 = store := by
  simp [runRequest, hraw, hbody, get_db, update, crud.update_todo, habs,
        openSession, Session.close, toResponse, Response.status, Except.map]

/-- Witness for C1 at a concrete input: id 7 is absent from the empty store. -/
theorem update_missing_yields_notFound_witness :
    (runRequest DB.empty false (Request.putTodo "7" ⟨[]⟩)).1 = Response.notFound ∧
    (runRequest DB.empty false (Request.putTodo "7" ⟨[]⟩)).1.status = 404 ∧
    (runRequest DB.empty false (Request.putTodo "7" ⟨[]⟩)).2.1 = DB.empty :=
  update_missing_yields_notFound DB.empty false "7" ⟨[]⟩ 7 ⟨none, none⟩
    (by decide) (by rfl) (by rfl)

/-- C2: a DELETE on an id that matches no stored Todo yields NotFound
(HTTP 404) and leaves the stored state unchanged. -/
theorem delete_missing_yields_notFound (store : DB) (fault : Bool) (rawId : String)
    (todo_id : Int)
    (hraw : parseIntSeg rawId = some todo_id)
    (habs : find_by_id store todo_id = none) :
    (runRequest store fault (Request.deleteTodo rawId)).1 = Response.notFound ∧
    (runRequest store fault (Request.deleteTodo rawId)).1.status = 404 ∧
    (runRequest store fault (Request.deleteTodo rawId)).2.1 = store := by
  simp [runRequest, hraw, get_db, delete, crud.delete_todo, habs,
        openSession, Session.close, toResponse, Response.status, Except.map]

/-- Witness for C2 at a concrete input: id 3 is absent from a one-row store. -/
theorem delete_missing_yields_notFound_witness :
    (runRequest ⟨[⟨1, "A", false⟩], 2⟩ false (Request.deleteTodo "3")).1 = Response.notFound ∧
    (runRequest ⟨[⟨1, "A", false⟩], 2⟩ false (Request.deleteTodo "3")).1.status = 404 ∧
    (runRequest ⟨[⟨1, "A", false⟩], 2⟩ false (Request.deleteTodo "3")).2.1
      = (⟨[⟨1, "A", false⟩], 2⟩ : DB) :=
  delete_missing_yields_notFound ⟨[⟨1, "A", false⟩], 2⟩ false "3" 3 (by decide) (by decide)

/-- C9: a PUT or DELETE whose path segment is not parseable as an
integer is rejected by the routing layer with a validation error (422);
no session is opened, the data-access component is never invoked, and
the stored state is unchanged (the empty event trail records that the
request never reached `get_db`). -/
theorem nonint_path_rejected (store : DB) (fault : Bool) (rawId : String) (body : JObj)
    (hbad : parseIntSeg rawId = none) :
    runRequest store fault (Request.putTodo rawId body)
      = (Response.unprocessable ["todo_id"], store, []) ∧
    runRequest store fault (Request.deleteTodo rawId)
      = (Response.unprocessable ["todo_id"], store, []) := by
  constructor <;> simp [runRequest, hbad]

/-- Witness for C9 at a concrete input: the path segment "abc". -/
theorem nonint_path_rejected_witness :
    runRequest ⟨[⟨1, "A", false⟩], 2⟩ false (Request.putTodo "abc" ⟨[]⟩)
      = (Response.unprocessable ["todo_id"], ⟨[⟨1, "A", false⟩], 2⟩, []) ∧
    runRequest ⟨[⟨1, "A", false⟩], 2⟩ false (Request.deleteTodo "abc")
      = (Response.unprocessable ["todo_id"], ⟨[⟨1, "A", false⟩], 2⟩, []) :=
  nonint_path_rejected ⟨[⟨1, "A", false⟩], 2⟩ false "abc" ⟨[]⟩ (by decide)

/-- C10: every success response body is serialized through the `TodoOut`
schema: GET /todos returns exactly the stored rows as a list of
`TodoOut` values, and POST/PUT/DELETE each return a single stored
record serialized by `toOut`, so no field outside `TodoOut` appears in
any response body. -/
theorem success_bodies_via_todoOut (store : DB) (fault : Bool) (req : Request) (b : Body)
    (h : (runRequest store fault req).1 = Response.ok b) :
    match req with
    | Request.getTodos => b = Body.many (store.rows.map toOut)
    | _ => ∃ t : Todo, b = Body.one (toOut t) := by
  cases req with
  | getTodos =>
    cases fault with
    | false =>
      simp [runRequest, get_db, read_todos, crud.get_todos, openSession,
            Session.close, toResponse, Except.map] at h
      exact h.symm
    | true =>
      simp [runRequest, get_db, read_todos, crud.get_todos, openSession,
            Session.close, toResponse, Except.map] at h
  | postTodo body =>
    cases hp : parseTodoCreate body with
    | error fs => simp [runRequest, hp] at h
    | ok tc =>
      cases fault with
      | false =>
        simp [runRequest, hp, get_db, add_todo, crud.create_todo, openSession,
              Session.commit, Session.close, toResponse, Except.map] at h
        exact ⟨(insertTodo store tc).1, h.symm⟩
      | true =>
        simp [runRequest, hp, get_db, add_todo, crud.create_todo, openSession,
              Session.commit, Session.close, toResponse, Except.map] at h
  | putTodo rawId body =>
    rcases hi : parseIntSeg rawId with _ | todo_id
    · simp [runRequest, hi] at h
    · cases hp : parseTodoUpdate body with
      | error fs => simp [runRequest, hi, hp] at h
      | ok u =>
        rcases hf : find_by_id store todo_id with _ | t
        · simp [runRequest, hi, hp, get_db, update, crud.update_todo, hf, openSession,
                Session.close, toResponse, Except.map] at h
        · cases fault with
          | false =>
            simp [runRequest, hi, hp, get_db, update, crud.update_todo, hf, openSession,
                  Session.commit, Session.close, toResponse, Except.map] at h
            exact ⟨applyUpdate t u, h.symm⟩
          | true =>
            simp [runRequest, hi, hp, get_db, update, crud.update_todo, hf, openSession,
                  Session.commit, Session.close, toResponse, Except.map] at h
  | deleteTodo rawId =>
    rcases hi : parseIntSeg rawId with _ | todo_id
    · simp [runRequest, hi] at h
    · rcases hf : find_by_id store todo_id with _ | t
      · simp [runRequest, hi, get_db, delete, crud.delete_todo, hf, openSession,
              Session.close, toResponse, Except.map] at h
      · cases fault with
        | false =>
          simp [runRequest, hi, get_db, delete, crud.delete_todo, hf, openSession,
                Session.commit, Session.close, toResponse, Except.map] at h
          exact ⟨t, h.symm⟩
        | true =>
          simp [runRequest, hi, get_db, delete, crud.delete_todo, hf, openSession,
                Session.commit, Session.close, toResponse, Except.map] at h

/-- Witness for C10 at a concrete input: GET over a one-row store. -/
theorem success_bodies_via_todoOut_witness :
    Body.many [⟨1, "A", false⟩] = Body.many ((⟨[⟨1, "A", false⟩], 2⟩ : DB).rows.map toOut) :=
  success_bodies_via_todoOut ⟨[⟨1, "A", false⟩], 2⟩ false Request.getTodos
    (Body.many [⟨1, "A", false⟩]) (by rfl)

/-- C3: every request that reaches a handler releases its scoped
session on every exit path — the event trail starts with the open and
ends with the close; when the handler succeeds its mutation has been
committed (or there was nothing to commit and the durable store is
untouched); when the storage layer fails the pending work is discarded
(the durable store is unchanged), the session is closed, and the error
surfaces as a 500. An empty trail marks a request rejected by
validation before a session was opened. -/
theorem session_scoped_release (store : DB) (fault : Bool) (req : Request) :
    ((runRequest store fault req).2.2 ≠ [] →
        (runRequest store fault req).2.2.head? = some SessEvent.opened ∧
        (runRequest store fault req).2.2.getLast? = some SessEvent.closed) ∧
    ((runRequest store fault req).1 = Response.serverError →
        (runRequest store fault req).2.1 = store ∧
        (runRequest store fault req).2.2.getLast? = some SessEvent.closed) ∧
    (∀ b, (runRequest store fault req).1 = Response.ok b →
        (SessEvent.committed ∈ (runRequest store fault req).2.2 ∨
          (runRequest store fault req).2.1 = store) ∧
        (runRequest store fault req).2.2.getLast? = some SessEvent.closed) := by
  cases req with
  | getTodos =>
    cases fault <;>
      simp [runRequest, get_db, read_todos, crud.get_todos, openSession,
            Session.close, toResponse, Except.map]
  | postTodo body =>
    cases hp : parseTodoCreate body with
    | error fs => simp [runRequest, hp]
    | ok tc =>
      cases fault with
      | false =>
        simp [runRequest, hp, get_db, add_todo, crud.create_todo, openSession,
              Session.commit, Session.close, toResponse, Except.map]
      | true =>
        simp only [runRequest, hp, get_db, add_todo, crud.create_todo, openSession,
                   Session.commit, toResponse, Except.map]
        rw [Session.close]
        split <;> split <;> simp
  | putTodo rawId body =>
    rcases hi : parseIntSeg rawId with _ | todo_id
    · simp [runRequest, hi]
    · cases hp : parseTodoUpdate body with
      | error fs => simp [runRequest, hi, hp]
      | ok u =>
        rcases hf : find_by_id store todo_id with _ | t
        · simp [runRequest, hi, hp, get_db, update, crud.update_todo, hf, openSession,
                Session.close, toResponse, Except.map]
        · cases fault with
          | false =>
            simp [runRequest, hi, hp, get_db, update, crud.update_todo, hf, openSession,
                  Session.commit, Session.close, toResponse, Except.map]
          | true =>
            simp only [runRequest, hi, hp, get_db, update, crud.update_todo, hf,
                       openSession, Session.commit, toResponse, Except.map]
            rw [Session.close]
            split <;> split <;> simp
  | deleteTodo rawId =>
    rcases hi : parseIntSeg rawId with _ | todo_id
    · simp [runRequest, hi]
    · rcases hf : find_by_id store todo_id with _ | t
      · simp [runRequest, hi, get_db, delete, crud.delete_todo, hf, openSession,
              Session.close, toResponse, Except.map]
      · cases fault with
        | false =>
          simp [runRequest, hi, get_db, delete, crud.delete_todo, hf, openSession,
                Session.commit, Session.close, toResponse, Except.map]
        | true =>
          simp only [runRequest, hi, get_db, delete, crud.delete_todo, hf,
                     openSession, Session.commit, toResponse, Except.map]
          rw [Session.close]
          split <;> split <;> simp

/-- Witness for C3 at a concrete input: a storage fault during a valid
POST is rolled back, closed, and surfaced as a 500. -/
theorem session_scoped_release_witness :
    ((runRequest DB.empty true (Request.postTodo ⟨[("title", JVal.str "A")]⟩)).2.2 ≠ [] →
        (runRequest DB.empty true (Request.postTodo ⟨[("title", JVal.str "A")]⟩)).2.2.head?
            = some SessEvent.opened ∧
        (runRequest DB.empty true (Request.postTodo ⟨[("title", JVal.str "A")]⟩)).2.2.getLast?
            = some SessEvent.closed) ∧
    ((runRequest DB.empty true (Request.postTodo ⟨[("title", JVal.str "A")]⟩)).1
          = Response.serverError →
        (runRequest DB.empty true (Request.postTodo ⟨[("title", JVal.str "A")]⟩)).2.1
            = DB.empty ∧
        (runRequest DB.empty true (Request.postTodo ⟨[("title", JVal.str "A")]⟩)).2.2.getLast?
            = some SessEvent.closed) ∧
    (∀ b, (runRequest DB.empty true (Request.postTodo ⟨[("title", JVal.str "A")]⟩)).1
          = Response.ok b →
        (SessEvent.committed
              ∈ (runRequest DB.empty true (Request.postTodo ⟨[("title", JVal.str "A")]⟩)).2.2 ∨
          (runRequest DB.empty true (Request.postTodo ⟨[("title", JVal.str "A")]⟩)).2.1
            = DB.empty) ∧
        (runRequest DB.empty true (Request.postTodo ⟨[("title", JVal.str "A")]⟩)).2.2.getLast?
            = some SessEvent.closed) :=
  session_scoped_release DB.empty true (Request.postTodo ⟨[("title", JVal.str "A")]⟩)

/-- C6 round-trip: creating a Todo titled "Buy milk" and reading it back
through the stored list or through `findByID` yields a record whose
title is "Buy milk"; reads are pure functions of the store, so the id
observed is the same across repeated reads (the last conjunct pins the
id each read reports to the created record's id). -/
theorem create_read_roundtrip (db : DB) (c : Bool)
    (hwf : ∀ t ∈ db.rows, t.id < db.nextId) :
    (insertTodo db ⟨"Buy milk", c⟩).1.title = "Buy milk" ∧
    (insertTodo db ⟨"Buy milk", c⟩).1 ∈ (insertTodo db ⟨"Buy milk", c⟩).2.rows ∧
    find_by_id (insertTodo db ⟨"Buy milk", c⟩).2 (insertTodo db ⟨"Buy milk", c⟩).1.id
      = some (insertTodo db ⟨"Buy milk", c⟩).1 ∧
    (find_by_id (insertTodo db ⟨"Buy milk", c⟩).2 (insertTodo db ⟨"Buy milk", c⟩).1.id).map
        (fun t => t.id)
      = some (insertTodo db ⟨"Buy milk", c⟩).1.id := by
  have hnone : db.rows.find? (fun t => t.id == db.nextId) = none := by
    rw [List.find?_eq_none]
    intro t ht
    simp only [beq_iff_eq]
    exact Int.ne_of_lt (hwf t ht)
  have hfind : find_by_id (insertTodo db ⟨"Buy milk", c⟩).2
      (insertTodo db ⟨"Buy milk", c⟩).1.id = some (insertTodo db ⟨"Buy milk", c⟩).1 := by
    simp [find_by_id, insertTodo, List.find?_append, hnone]
  exact ⟨rfl, by simp [insertTodo], hfind, by rw [hfind]; rfl⟩

/-- Witness for C6 at a concrete input: a one-row store. -/
theorem create_read_roundtrip_witness :
    (insertTodo ⟨[⟨1, "x", true⟩], 2⟩ ⟨"Buy milk", false⟩).1.title = "Buy milk" ∧
    (insertTodo ⟨[⟨1, "x", true⟩], 2⟩ ⟨"Buy milk", false⟩).1
      ∈ (insertTodo ⟨[⟨1, "x", true⟩], 2⟩ ⟨"Buy milk", false⟩).2.rows ∧
    find_by_id (insertTodo ⟨[⟨1, "x", true⟩], 2⟩ ⟨"Buy milk", false⟩).2
        (insertTodo ⟨[⟨1, "x", true⟩], 2⟩ ⟨"Buy milk", false⟩).1.id
      = some (insertTodo ⟨[⟨1, "x", true⟩], 2⟩ ⟨"Buy milk", false⟩).1 ∧
    (find_by_id (insertTodo ⟨[⟨1, "x", true⟩], 2⟩ ⟨"Buy milk", false⟩).2
        (insertTodo ⟨[⟨1, "x", true⟩], 2⟩ ⟨"Buy milk", false⟩).1.id).map (fun t => t.id)
      = some (insertTodo ⟨[⟨1, "x", true⟩], 2⟩ ⟨"Buy milk", false⟩).1.id :=
  create_read_roundtrip ⟨[⟨1, "x", true⟩], 2⟩ false (by decide)

/-- C7: deleting a stored Todo answers 200 with the deleted record's
last known values (the snapshot returned by `findByID` before erasure),
and a subsequent `findByID` on that id yields NotFound — no
resurrection. -/
theorem delete_snapshot_no_resurrection (db : DB) (todo_id : Int) (t : Todo)
    (rawId : String)
    (hraw : parseIntSeg rawId = some todo_id)
    (hfind : find_by_id db todo_id = some t) :
    crud.delete_todo false (openSession db) todo_id
      = (Except.ok t, Session.commit ⟨db, deleteRows db todo_id, [SessEvent.opened]⟩) ∧
    find_by_id (deleteRows db todo_id) todo_id = none ∧
    (runRequest db false (Request.deleteTodo rawId)).1 = Response.ok (Body.one (toOut t)) ∧
    (runRequest db false (Request.deleteTodo rawId)).1.status = 200 ∧
    (runRequest db false (Request.deleteTodo rawId)).2.1 = deleteRows db todo_id := by
  have hnone : find_by_id (deleteRows db todo_id) todo_id = none := by
    rw [find_by_id, deleteRows, List.find?_eq_none]
    intro x hx
    have hne := (List.mem_filter.mp hx).2
    simp only [bne_iff_ne, ne_eq] at hne
    simp [hne]
  refine ⟨?_, hnone, ?_, ?_, ?_⟩
  · simp [crud.delete_todo, openSession, hfind]
  · simp [runRequest, hraw, get_db, delete, crud.delete_todo, hfind, openSession,
          Session.commit, Session.close, toResponse, Except.map]
  · simp [runRequest, hraw, get_db, delete, crud.delete_todo, hfind, openSession,
          Session.commit, Session.close, toResponse, Except.map, Response.status]
  · simp [runRequest, hraw, get_db, delete, crud.delete_todo, hfind, openSession,
          Session.commit, Session.close, toResponse, Except.map]

/-- Witness for C7 at a concrete input: deleting id 1 from a one-row store. -/
theorem delete_snapshot_no_resurrection_witness :
    crud.delete_todo false (openSession ⟨[⟨1, "A", false⟩], 2⟩) 1
      = (Except.ok ⟨1, "A", false⟩,
          Session.commit ⟨⟨[⟨1, "A", false⟩], 2⟩, deleteRows ⟨[⟨1, "A", false⟩], 2⟩ 1,
            [SessEvent.opened]⟩) ∧
    find_by_id (deleteRows ⟨[⟨1, "A", false⟩], 2⟩ 1) 1 = none ∧
    (runRequest ⟨[⟨1, "A", false⟩], 2⟩ false (Request.deleteTodo "1")).1
      = Response.ok (Body.one (toOut ⟨1, "A", false⟩)) ∧
    (runRequest ⟨[⟨1, "A", false⟩], 2⟩ false (Request.deleteTodo "1")).1.status = 200 ∧
    (runRequest ⟨[⟨1, "A", false⟩], 2⟩ false (Request.deleteTodo "1")).2.1
      = deleteRows ⟨[⟨1, "A", false⟩], 2⟩ 1 :=
  delete_snapshot_no_resurrection ⟨[⟨1, "A", false⟩], 2⟩ 1 ⟨1, "A", false⟩ "1"
    (by decide) (by decide)

/-- Invariant of traces: the history of ids handed out by creates stays
strictly below the autoincrement counter, stays duplicate-free, and
stays at least 1; updates and deletes never disturb it. -/
theorem runOps_inv (ops : List Op) :
    ∀ (db : DB) (hist : List Int),
      (∀ i ∈ hist, i < db.nextId) → hist.Nodup → (∀ i ∈ hist, 1 ≤ i) → 1 ≤ db.nextId →
      (∀ i ∈ (runOps db hist ops).2, i < (runOps db hist ops).1.nextId) ∧
      (runOps db hist ops).2.Nodup ∧
      (∀ i ∈ (runOps db hist ops).2, 1 ≤ i) ∧
      1 ≤ (runOps db hist ops).1.nextId := by
  induction ops with
  | nil =>
    intro db hist h1 h2 h3 h4
    exact ⟨h1, h2, h3, h4⟩
  | cons op ops ih =>
    intro db hist h1 h2 h3 h4
    cases op with
    | create tc =>
      have hstep : stepOp db hist (Op.create tc)
          = (⟨db.rows ++ [⟨db.nextId, tc.title, tc.completed⟩], db.nextId + 1⟩,
             hist ++ [db.nextId]) := by
        simp [stepOp, insertTodo]
      rw [runOps, hstep]
      apply ih
      · intro i hi
        show i < db.nextId + 1
        rcases List.mem_append.mp hi with h | h
        · have := h1 i h
          omega
        · simp only [List.mem_singleton] at h
          omega
      · have hnotmem : db.nextId ∉ hist := fun hm => absurd (h1 _ hm) (by omega)
        simp [List.nodup_append, h2, hnotmem]
      · intro i hi
        rcases List.mem_append.mp hi with h | h
        · exact h3 i h
        · simp only [List.mem_singleton] at h
          omega
      · show 1 ≤ db.nextId + 1
        omega
    | upd todo_id u =>
      rw [runOps]
      cases hf : find_by_id db todo_id with
      | none => simp only [stepOp, hf]; exact ih db hist h1 h2 h3 h4
      | some t =>
        simp only [stepOp, hf]
        exact ih _ hist (by simpa [updateRows] using h1) h2 h3
          (by simpa [updateRows] using h4)
    | del todo_id =>
      rw [runOps]
      cases hf : find_by_id db todo_id with
      | none => simp only [stepOp, hf]; exact ih db hist h1 h2 h3 h4
      | some t =>
        simp only [stepOp, hf]
        exact ih _ hist (by simpa [deleteRows] using h1) h2 h3
          (by simpa [deleteRows] using h4)

/-- C4: over any trace of operations starting from the empty store, the
ids returned by the successful creates are pairwise distinct — each is
fresh when handed out, never equal to an earlier one even if that
record was deleted in between — and non-null (at least 1). -/
theorem create_ids_fresh_unique (ops : List Op) :
    ((runOps DB.empty [] ops).2).Nodup ∧ ∀ i ∈ (runOps DB.empty [] ops).2, 1 ≤ i := by
  have h := runOps_inv ops DB.empty [] (by simp) (by simp) (by simp) (by simp [DB.empty])
  exact ⟨h.2.1, h.2.2.1⟩

/-- Witness for C4 at a concrete trace: create, delete, create again —
the second create's id (2) is fresh, not the deleted id reused. -/
theorem create_ids_fresh_unique_witness :
    ((runOps DB.empty [] [Op.create ⟨"A", false⟩, Op.del 1, Op.create ⟨"B", false⟩]).2).Nodup ∧
    (1 : Int) ≤ 2 :=
  ⟨(create_ids_fresh_unique [Op.create ⟨"A", false⟩, Op.del 1, Op.create ⟨"B", false⟩]).1,
   (create_ids_fresh_unique [Op.create ⟨"A", false⟩, Op.del 1, Op.create ⟨"B", false⟩]).2 2
     (by decide)⟩

/-- Erasing the rows matching an id commutes with projecting ids. -/
theorem ids_deleteRows (db : DB) (d : Int) :
    (deleteRows db d).ids = db.ids.filter (fun i => i != d) := by
  rw [deleteRows, DB.ids, DB.ids]
  induction db.rows with
  | nil => rfl
  | cons t l ih =>
    by_cases h : t.id = d
    · simp [List.filter_cons, h, ih]
    · simp [List.filter_cons, h, ih]

/-- Filtering one present element out of a duplicate-free list shortens
it by exactly one. -/
theorem filter_ne_length_of_nodup (l : List Int) (d : Int)
    (hnd : l.Nodup) (hmem : d ∈ l) :
    (l.filter (fun i => i != d)).length + 1 = l.length := by
  induction l with
  | nil => cases hmem
  | cons x xs ih =>
    have hx : x ∉ xs := (List.nodup_cons.mp hnd).1
    have hxs : xs.Nodup := (List.nodup_cons.mp hnd).2
    by_cases hxd : x = d
    · subst hxd
      have : xs.filter (fun i => i != x) = xs :=
        List.filter_eq_self.mpr (fun a ha => by
          simp only [bne_iff_ne, ne_eq]
          exact fun hax => hx (hax ▸ ha))
      simp [List.filter_cons, this]
    · have hdm : d ∈ xs := by
        rcases List.mem_cons.mp hmem with h | h
        · exact absurd h.symm hxd
        · exact h
      have := ih hxs hdm
      simp only [List.filter_cons, bne_iff_ne, ne_eq, hxd, not_false_eq_true,
                 decide_True, if_true, List.length_cons]
      omega

/-- After a sequence of creates the store has gained one row per create,
all ids stay below the autoincrement counter, and ids stay
duplicate-free. -/
theorem runCreates_spec (tcs : List TodoCreate) :
    ∀ db : DB, (∀ t ∈ db.rows, t.id < db.nextId) → db.ids.Nodup →
      (runCreates db tcs).rows.length = db.rows.length + tcs.length ∧
      (∀ t ∈ (runCreates db tcs).rows, t.id < (runCreates db tcs).nextId) ∧
      ((runCreates db tcs).ids).Nodup := by
  induction tcs with
  | nil =>
    intro db h1 h2
    exact ⟨rfl, h1, h2⟩
  | cons tc tcs ih =>
    intro db h1 h2
    have hins : (insertTodo db tc).2
        = (⟨db.rows ++ [⟨db.nextId, tc.title, tc.completed⟩], db.nextId + 1⟩ : DB) := rfl
    have hb : ∀ t ∈ (insertTodo db tc).2.rows, t.id < (insertTodo db tc).2.nextId := by
      rw [hins]
      intro t ht
      show t.id < db.nextId + 1
      rcases List.mem_append.mp ht with h | h
      · have := h1 t h
        omega
      · simp only [List.mem_singleton] at h
        subst h
        simp
    have hn : ((insertTodo db tc).2).ids.Nodup := by
      rw [hins]
      show (((db.rows ++ [(⟨db.nextId, tc.title, tc.completed⟩ : Todo)]).map (fun t => t.id))).Nodup
      have hnm : db.nextId ∉ db.ids := by
        intro hm
        rw [DB.ids] at hm
        rcases List.mem_map.mp hm with ⟨t, ht, hid⟩
        exact absurd (h1 t ht) (by omega)
      rw [List.map_append]
      simp only [List.map_singleton]
      rw [List.nodup_append]
      exact ⟨h2, List.nodup_singleton _, by
        intro a ha hb2
        simp only [List.mem_singleton] at hb2
        subst hb2
        exact hnm ha⟩
    have := ih (insertTodo db tc).2 hb hn
    rw [runCreates]
    refine ⟨?_, this.2.1, this.2.2⟩
    rw [this.1]
    show (db.rows ++ [(⟨db.nextId, tc.title, tc.completed⟩ : Todo)]).length + tcs.length
        = db.rows.length + (tc :: tcs).length
    rw [List.length_append]
    simp only [List.length_singleton, List.length_cons, List.length_nil]
    omega

/-- A stored id can always be looked up. -/
theorem find_by_id_isSome_of_mem (db : DB) (d : Int) (h : d ∈ db.ids) :
    ∃ t, find_by_id db d = some t := by
  rw [DB.ids] at h
  rcases List.mem_map.mp h with ⟨t, ht, hid⟩
  have hs : (db.rows.find? (fun t => t.id == d)).isSome :=
    List.find?_isSome.mpr ⟨t, ht, by simp [hid]⟩
  rcases Option.isSome_iff_exists.mp hs with ⟨x, hx⟩
  exact ⟨x, hx⟩

/-- After a sequence of successful deletes of distinct stored ids, the
store has lost exactly one row per delete, ids stay duplicate-free, and
the surviving ids are exactly the prior ids minus the deleted ones. -/
theorem runDeletes_spec (dels : List Int) :
    ∀ db : DB, db.ids.Nodup → dels.Nodup → (∀ d ∈ dels, d ∈ db.ids) →
      (runDeletes db dels).rows.length + dels.length = db.rows.length ∧
      ((runDeletes db dels).ids).Nodup ∧
      (∀ i : Int, i ∈ (runDeletes db dels).ids ↔ i ∈ db.ids ∧ i ∉ dels) := by
  induction dels with
  | nil =>
    intro db h1 _ _
    exact ⟨rfl, h1, fun i => by simp [runDeletes]⟩
  | cons d ds ih =>
    intro db h1 h2 h3
    rcases find_by_id_isSome_of_mem db d (h3 d (List.mem_cons_self d ds)) with ⟨t, ht⟩
    simp only [runDeletes, ht]
    have hids : (deleteRows db d).ids = db.ids.filter (fun i => i != d) :=
      ids_deleteRows db d
    have h1' : ((deleteRows db d).ids).Nodup := by
      rw [hids]
      exact h1.filter _
    have hmem' : ∀ i : Int, i ∈ (deleteRows db d).ids ↔ i ∈ db.ids ∧ i ≠ d := by
      intro i
      rw [hids]
      simp [List.mem_filter]
    have hd : d ∉ ds := (List.nodup_cons.mp h2).1
    have hds : ds.Nodup := (List.nodup_cons.mp h2).2
    have hsub' : ∀ x ∈ ds, x ∈ (deleteRows db d).ids := by
      intro x hx
      rw [hmem' x]
      refine ⟨h3 x (List.mem_cons_of_mem d hx), ?_⟩
      intro hxd
      exact hd (hxd ▸ hx)
    have hlen1 : ((deleteRows db d).ids).length + 1 = db.ids.length := by
      rw [hids]
      exact filter_ne_length_of_nodup db.ids d h1 (h3 d (List.mem_cons_self d ds))
    have hrl : ∀ x : DB, x.ids.length = x.rows.length := by
      intro x
      rw [DB.ids, List.length_map]
    rcases ih (deleteRows db d) h1' hds hsub' with ⟨hl, hn, hm⟩
    refine ⟨?_, hn, ?_⟩
    · have e1 := hrl (deleteRows db d)
      have e2 := hrl db
      simp only [List.length_cons]
      omega
    · intro i
      rw [hm i, hmem' i]
      simp only [List.mem_cons]
      tauto

/-- C5: after N successful creates from the empty store followed by M
successful deletes of distinct created ids, GET /todos returns exactly
the stored rows — N − M records — and the surviving ids are exactly the
created ids minus the deleted ones. -/
theorem list_after_creates_deletes (creates : List TodoCreate) (dels : List Int)
    (hnd : dels.Nodup)
    (hsub : ∀ d ∈ dels, d ∈ (runCreates DB.empty creates).ids) :
    (runRequest (runDeletes (runCreates DB.empty creates) dels) false Request.getTodos).1
      = Response.ok (Body.many
          ((runDeletes (runCreates DB.empty creates) dels).rows.map toOut)) ∧
    (runDeletes (runCreates DB.empty creates) dels).rows.length
      = creates.length - dels.length ∧
    (∀ i : Int, i ∈ (runDeletes (runCreates DB.empty creates) dels).ids ↔
      (i ∈ (runCreates DB.empty creates).ids ∧ i ∉ dels)) := by
  have hc := runCreates_spec creates DB.empty (by simp [DB.empty]) (by simp [DB.empty, DB.ids])
  have hd := runDeletes_spec dels (runCreates DB.empty creates) hc.2.2 hnd hsub
  refine ⟨?_, ?_, hd.2.2⟩
  · simp [runRequest, get_db, read_todos, crud.get_todos, openSession, Session.close,
          toResponse, Except.map]
  · have h1 := hd.1
    have h2 := hc.1
    have h3 : DB.empty.rows.length = 0 := rfl
    omega

/-- Witness for C5 at a concrete input: three creates, then deleting
ids 1 and 3, leaves exactly one record with id 2. -/
theorem list_after_creates_deletes_witness :
    (runRequest (runDeletes (runCreates DB.empty
          [⟨"A", false⟩, ⟨"B", false⟩, ⟨"C", false⟩]) [1, 3]) false Request.getTodos).1
      = Response.ok (Body.many
          ((runDeletes (runCreates DB.empty
              [⟨"A", false⟩, ⟨"B", false⟩, ⟨"C", false⟩]) [1, 3]).rows.map toOut)) ∧
    (runDeletes (runCreates DB.empty
        [⟨"A", false⟩, ⟨"B", false⟩, ⟨"C", false⟩]) [1, 3]).rows.length = 3 - 2 ∧
    (∀ i : Int, i ∈ (runDeletes (runCreates DB.empty
          [⟨"A", false⟩, ⟨"B", false⟩, ⟨"C", false⟩]) [1, 3]).ids ↔
      (i ∈ (runCreates DB.empty [⟨"A", false⟩, ⟨"B", false⟩, ⟨"C", false⟩]).ids ∧
        i ∉ ([1, 3] : List Int))) :=
  list_after_creates_deletes [⟨"A", false⟩, ⟨"B", false⟩, ⟨"C", false⟩] [1, 3]
    (by decide) (by decide)

/-- Schema validation of a create body never fails with empty detail:
the error always names at least one offending field. -/
theorem parseTodoCreate_error_ne_nil {o : JObj} {fs : List String}
    (h : parseTodoCreate o = Except.error fs) : fs ≠ [] := by
  rcases ht : o.get "title" with _ | tv <;> rcases hc : o.get "completed" with _ | cv <;>
    simp only [parseTodoCreate, ht, hc] at h <;>
    (try cases tv) <;> (try cases cv) <;>
    (intro hfs; rw [hfs] at h; simp at h)

/-- C8: on POST /todos, a body failing schema validation yields a 422
with field-level detail and creates no Todo (the store is unchanged and
no session is opened); a valid body yields a success response carrying
the created Todo as JSON, and the store gains exactly that record. -/
theorem post_validation (store : DB) (body : JObj) :
    (∀ fs, parseTodoCreate body = Except.error fs →
      runRequest store false (Request.postTodo body)
        = (Response.unprocessable fs, store, []) ∧ fs ≠ []) ∧
    (∀ tc, parseTodoCreate body = Except.ok tc →
      (runRequest store false (Request.postTodo body)).1
          = Response.ok (Body.one (toOut (insertTodo store tc).1)) ∧
      (runRequest store false (Request.postTodo body)).1.status = 200 ∧
      (runRequest store false (Request.postTodo body)).2.1 = (insertTodo store tc).2) := by
  constructor
  · intro fs hfs
    exact ⟨by simp [runRequest, hfs], parseTodoCreate_error_ne_nil hfs⟩
  · intro tc htc
    simp [runRequest, htc, get_db, add_todo, crud.create_todo, openSession,
          Session.commit, Session.close, toResponse, Except.map, Response.status]

/-- Witness for C8 at concrete inputs: the empty body is rejected with
detail ["title"]; a well-formed body creates the record. -/
theorem post_validation_witness :
    (runRequest DB.empty false (Request.postTodo ⟨[]⟩)
        = (Response.unprocessable ["title"], DB.empty, []) ∧ ["title"] ≠ ([] : List String)) ∧
    (runRequest DB.empty false (Request.postTodo ⟨[("title", JVal.str "Buy milk")]⟩)).1
        = Response.ok (Body.one (toOut (insertTodo DB.empty ⟨"Buy milk", false⟩).1)) :=
  ⟨(post_validation DB.empty ⟨[]⟩).1 ["title"] (by rfl),
   ((post_validation DB.empty ⟨[("title", JVal.str "Buy milk")]⟩).2 ⟨"Buy milk", false⟩
      (by rfl)).1⟩
